import Mathlib

/-!
Verification development for the qiniu client-side upload orchestration
engine (C bindings of the qiniu rust-sdk).  The repository ships only the
C test-suite for the bindings; the binding implementation itself is not
part of the source tree, so the operations below are modelled from the
specification (each such definition carries a doc comment starting with
`Modelled from the spec:`), kept consistent with every behaviour the C
tests pin down.

Strings are embedded as `List Char`, byte sequences as `List Nat`, and
machine integers as `Nat`/`Int`.  All definitions are structural (no
well-founded recursion), so witnesses evaluate by kernel reduction.
-/

set_option autoImplicit false

namespace QiniuNg

/-! ## Error taxonomy (spec section 7) -/

/-- Modelled from the spec: the error taxonomy of section 7 plus the
`io`/`unknown` kinds exercised by `test_storage.c`.  Each constructor
carries the payload its extractor yields (errno code, curl code, HTTP
status plus server message, or a descriptive message). -/
inductive ErrKind where
  | osError (code : Int)
  | ioError (msg : List Char)
  | emptyFile
  | badMimeType (msg : List Char)
  | curlError (code : Nat)
  | responseStatusError (status : Nat) (msg : List Char)
  | jsonError (msg : List Char)
  | unknownError (msg : List Char)
  | userCanceled
  deriving DecidableEq, Repr

/-- Tags naming the error kinds, used by the kind-selective extractors. -/
inductive ErrTag where
  | os | io | emptyFile | badMime | curl | responseStatus | json | unknown | userCanceled
  deriving DecidableEq, Repr

/-- The tag of an error value. -/
def ErrKind.tag : ErrKind → ErrTag
  | .osError _ => .os
  | .ioError _ => .io
  | .emptyFile => .emptyFile
  | .badMimeType _ => .badMime
  | .curlError _ => .curl
  | .responseStatusError _ _ => .responseStatus
  | .jsonError _ => .json
  | .unknownError _ => .unknown
  | .userCanceled => .userCanceled

/-- A `qiniu_ng_err_t` cell as the extractors see it: it either still holds
an error or has been consumed by a successful extraction. -/
abbrev ErrCell : Type := Option ErrKind

/-- Modelled from the spec: kind-selective, consuming extraction
(`qiniu_ng_err_*_error_extract`).  A matching extractor returns `true`,
yields the error payload and clears the cell; a non-matching extractor
returns `false` and leaves the cell untouched; extraction from a cleared
cell returns `false`. -/
def extractErr (t : ErrTag) (cell : ErrCell) : Bool × ErrCell × Option ErrKind :=
  match cell with
  | none => (false, none, none)
  | some e => if e.tag = t then (true, none, some e) else (false, some e, none)

/-- Whether an error is classified as a curl/transport error. -/
def ErrKind.isCurlError : ErrKind → Bool
  | .curlError _ => true
  | _ => false

/-- Whether an error is the `UserCanceled` kind. -/
def ErrKind.isUserCanceled : ErrKind → Bool
  | .userCanceled => true
  | _ => false

/-- The errno value `ENOENT` (no such file or directory). -/
def ENOENT : Int := 2

/-- The errno value `EPERM` (operation not permitted). -/
def EPERM : Int := 1

/-! ## Mime validation -/

/-- Modelled from the spec: client-side mime syntax validation.  A mime
string is syntactically valid when it is of the form `type/subtype` with
both parts nonempty; the string `invalid` used by the tests has no slash
and is rejected. -/
def isValidMime (m : List Char) : Bool :=
  match m.splitOn '/' with
  | [t, s] => !t.isEmpty && !s.isEmpty
  | _ => false

/-! ## Length-prefixed serialization

Modelled from the spec: the upload token embeds `base64(policy)`, an
injective serialization of the policy that `Token::policy()` decodes
without re-signing.  The serialization is modelled as a length-prefixed
field encoding (decimal length, a colon, then the payload), which is
injective for arbitrary field contents exactly like the base64-of-JSON
encoding of the bindings. -/

/-- The decimal digit character for `d` (meaningful for `d < 10`). -/
def digitChar (d : Nat) : Char := Char.ofNat (48 + d)

/-- Little-endian decimal digit characters of `n`; the first argument is
structural fuel, always instantiated with a bound on `n`. -/
def encNatAux : Nat → Nat → List Char
  | 0, _ => []
  | fuel + 1, n => if n = 0 then [] else digitChar (n % 10) :: encNatAux fuel (n / 10)

/-- Little-endian decimal digit characters of `n`. -/
def encNat (n : Nat) : List Char := encNatAux n n

/-- Decode a little-endian decimal digit-character list. -/
def decDigitsLE : List Char → Nat
  | [] => 0
  | c :: t => (c.toNat - 48) + 10 * decDigitsLE t

/-- Read a decimal number terminated by a colon, returning the number and
the remainder of the input. -/
def decNatHeader (l : List Char) : Option (Nat × List Char) :=
  match l.dropWhile Char.isDigit with
  | ':' :: rest => some (decDigitsLE (l.takeWhile Char.isDigit), rest)
  | _ => none

/-- Length-prefixed encoding of one string field. -/
def encField (s : List Char) : List Char := encNat s.length ++ ':' :: s

/-- Decode one length-prefixed string field. -/
def decField (l : List Char) : Option (List Char × List Char) :=
  match decNatHeader l with
  | none => none
  | some (n, r) => if n ≤ r.length then some (r.take n, r.drop n) else none

/-- Encoding of one boolean field. -/
def encBool (b : Bool) : List Char := [if b then '1' else '0']

/-- Decode one boolean field. -/
def decBool : List Char → Option (Bool × List Char)
  | '1' :: t => some (true, t)
  | '0' :: t => some (false, t)
  | _ => none

/-- Encoding of one optional string field. -/
def encOptStr : Option (List Char) → List Char
  | none => ['N']
  | some s => 'S' :: encField s

/-- Decode one optional string field. -/
def decOptStr : List Char → Option (Option (List Char) × List Char)
  | 'N' :: t => some (none, t)
  | 'S' :: t =>
    match decField t with
    | some (s, r) => some (some s, r)
    | none => none
  | _ => none

/-- Encoding of a list of string fields: a count header followed by the
encoded elements. -/
def encStrList (ss : List (List Char)) : List Char :=
  encNat ss.length ++ ':' :: (ss.map encField).flatten

/-- Decode `n` consecutive string fields. -/
def decStrListAux : Nat → List Char → Option (List (List Char) × List Char)
  | 0, l => some ([], l)
  | n + 1, l =>
    match decField l with
    | none => none
    | some (s, r) =>
      match decStrListAux n r with
      | none => none
      | some (ss, r') => some (s :: ss, r')

/-- Decode a counted list of string fields. -/
def decStrList (l : List Char) : Option (List (List Char) × List Char) :=
  match decNatHeader l with
  | none => none
  | some (n, r) => decStrListAux n r

/-! ### Round-trip lemmas for the field codecs -/

/-! ## Etag (content hashing collaborator) -/

/-- The length of a qiniu etag string (`ETAG_SIZE` in the C headers). -/
def etagSize : Nat := 28

/-- The 62-character alphanumeric output alphabet of the digest model. -/
def etagAlphabet : List Char :=
  "ABCDEFGHIJKLMNOPQRSTUVWXYZabcdefghijklmnopqrstuvwxyz0123456789".toList

/-- A simple content-determined accumulator used by the digest model. -/
def polyHash (bs : List Nat) : Nat :=
  bs.foldl (fun h b => (h * 131 + b + 7) % 1000000007) 5381

/-- The output character for digest state `n`. -/
def etagChar (n : Nat) : Char := etagAlphabet.getD (n % 62) 'A'

/-- Modelled from the spec: content hashing (etag computation) is an
external collaborator the engine calls but does not implement; it is
modelled as a content-determined digest of fixed length `etagSize` over
an alphanumeric alphabet, mirroring the base64url digest of the SDK. -/
def etagFromData (bs : List Nat) : List Char :=
  (List.range etagSize).map fun i => etagChar (polyHash bs + 31 * i)

/-! ## Upload policy, policy builder and upload token (spec section 4.2) -/

/-- Modelled from the spec: the `UploadPolicy` data model of section 3,
restricted to the fields the observed behaviour exercises (bucket, the
insert-only/overwritable flag, the token deadline in epoch seconds, the
callback fields and the infrequent-storage flag). -/
structure UploadPolicy where
  bucket : List Char
  insertOnly : Bool
  deadline : Nat
  callbackUrls : List (List Char)
  callbackHost : Option (List Char)
  callbackBody : Option (List Char)
  callbackBodyType : Option (List Char)
  infrequentStorage : Bool
  deriving DecidableEq, Repr

/-- The injective serialization of a policy (the `base64(policy)` payload
of a token). -/
def policyEncode (p : UploadPolicy) : List Char :=
  encField p.bucket ++ encBool p.insertOnly ++ encNat p.deadline ++ ':' ::
    (encStrList p.callbackUrls ++ encOptStr p.callbackHost ++ encOptStr p.callbackBody ++
      encOptStr p.callbackBodyType ++ encBool p.infrequentStorage)

/-- Decode a serialized policy, returning the policy and the remaining
input. -/
def policyDecodeAux (l : List Char) : Option (UploadPolicy × List Char) :=
  match decField l with
  | none => none
  | some (bucket, l) =>
  match decBool l with
  | none => none
  | some (ins, l) =>
  match decNatHeader l with
  | none => none
  | some (dl, l) =>
  match decStrList l with
  | none => none
  | some (urls, l) =>
  match decOptStr l with
  | none => none
  | some (host, l) =>
  match decOptStr l with
  | none => none
  | some (body, l) =>
  match decOptStr l with
  | none => none
  | some (btype, l) =>
  match decBool l with
  | none => none
  | some (infreq, l) => some (⟨bucket, ins, dl, urls, host, body, btype, infreq⟩, l)

/-- Modelled from the spec: a single-use policy builder holding the policy
under construction together with an explicit consumed tag (spec section 9:
"model as a move-only type whose build takes ownership and leaves the
original in an explicitly tagged consumed state"). -/
structure UploadPolicyBuilder where
  policy : UploadPolicy
  consumed : Bool
  deriving DecidableEq, Repr

/-- Modelled from the spec: `qiniu_ng_upload_policy_builder_new_for_bucket`.
The deadline argument stands for "now plus the configured token lifetime"
that the config supplies. -/
def uploadPolicyBuilderNewForBucket (bucket : List Char) (deadline : Nat) :
    UploadPolicyBuilder :=
  ⟨⟨bucket, false, deadline, [], none, none, none, false⟩, false⟩

/-- The mutating operations of the policy builder exercised by the tests. -/
inductive PolicyBuilderOp where
  | setInsertOnly
  | setOverwritable
  | setTokenDeadline (d : Nat)
  | setCallback (urls : List (List Char)) (host : Option (List Char))
      (body : Option (List Char)) (bodyType : Option (List Char))
  | setInfrequentStorage (v : Bool)
  deriving DecidableEq, Repr

/-- The effect of one builder mutator on the policy under construction. -/
def updatePolicy (p : UploadPolicy) : PolicyBuilderOp → UploadPolicy
  | .setInsertOnly => { p with insertOnly := true }
  | .setOverwritable => { p with insertOnly := false }
  | .setTokenDeadline d => { p with deadline := d }
  | .setCallback urls host body btype =>
      { p with callbackUrls := urls, callbackHost := host,
               callbackBody := body, callbackBodyType := btype }
  | .setInfrequentStorage v => { p with infrequentStorage := v }

/-- Modelled from the spec: a builder mutator is a checked operation that
fails (returns `none`, the C functions return `false`) on a consumed
builder. -/
def applyPolicyOp (b : UploadPolicyBuilder) (op : PolicyBuilderOp) :
    Option UploadPolicyBuilder :=
  if b.consumed then none else some { b with policy := updatePolicy b.policy op }

/-- Run a sequence of mutators; a rejected mutator leaves the builder
unchanged. -/
def applyPolicyOps (b : UploadPolicyBuilder) (ops : List PolicyBuilderOp) :
    UploadPolicyBuilder :=
  ops.foldl (fun b op => (applyPolicyOp b op).getD b) b

/-- Modelled from the spec: `qiniu_ng_upload_policy_build` consumes the
builder; building from an already consumed builder is a checked error. -/
def uploadPolicyBuild (b : UploadPolicyBuilder) :
    Option (UploadPolicy × UploadPolicyBuilder) :=
  if b.consumed then none else some (b.policy, { b with consumed := true })

/-- The `qiniu_ng_upload_policy_builder_is_freed` predicate. -/
def uploadPolicyBuilderIsFreed (b : UploadPolicyBuilder) : Bool := b.consumed

/-- An access key / secret key pair (the credential collaborator). -/
structure Credential where
  accessKey : List Char
  secretKey : List Char
  deriving DecidableEq, Repr

/-- Modelled from the spec: HMAC-based signing is an external collaborator
("stable, narrow, already-correct"); it is modelled as a digest over the
secret key and the signed payload.  Its output alphabet is alphanumeric,
so a signature never contains the colon separator of the token format. -/
def hmacSignModel (secret payload : List Char) : List Char :=
  etagFromData ((secret ++ payload).map Char.toNat)

/-- Modelled from the spec: an upload token is either built by signing a
policy with a credential (`qiniu_ng_upload_token_new_from_policy`) or by
wrapping an already-signed token string
(`qiniu_ng_upload_token_new_from_token`). -/
inductive UploadToken where
  | fromPolicy (policy : UploadPolicy) (cred : Credential)
  | fromString (s : List Char)
  deriving DecidableEq, Repr

/-- Modelled from the spec: the token string is
`access_key : signature : serialized-policy`. -/
def uploadTokenGetString : UploadToken → List Char
  | .fromPolicy p c =>
      c.accessKey ++ ':' :: (hmacSignModel c.secretKey (policyEncode p) ++
        ':' :: policyEncode p)
  | .fromString s => s

/-- Split a character list at its first colon. -/
def splitFirstColon : List Char → Option (List Char × List Char)
  | [] => none
  | c :: t =>
    if c = ':' then some ([], t)
    else
      match splitFirstColon t with
      | none => none
      | some (a, r) => some (c :: a, r)

/-- Modelled from the spec: `Token::policy()` recovers the policy, either
directly (a token built from a policy carries it) or by parsing the
wrapped token string without re-signing. -/
def uploadTokenGetPolicy : UploadToken → Option UploadPolicy
  | .fromPolicy p _ => some p
  | .fromString s =>
    match splitFirstColon s with
    | none => none
    | some (_, rest) =>
      match splitFirstColon rest with
      | none => none
      | some (_, payload) =>
        match policyDecodeAux payload with
        | some (p, []) => some p
        | _ => none

/-! ## Client configuration and its single-use builder (spec section 6) -/

/-- The upload-recorder options recognized by the config. -/
structure UploadRecorderConfig where
  rootDirectory : Option (List Char)
  uploadBlockLifetime : Nat
  alwaysFlushRecords : Bool
  deriving DecidableEq, Repr

/-- The domains-manager options recognized by the config. -/
structure DomainsManagerConfig where
  persistentFilePath : Option (List Char)
  urlFrozenDuration : Nat
  resolutionsCacheLifetime : Nat
  autoPersistentInterval : Nat
  autoPersistentDisabled : Bool
  deriving DecidableEq, Repr

/-- The option settings a config builder accumulates. -/
structure ConfigSettings where
  useHttps : Bool
  batchMaxOperationSize : Nat
  uploadThreshold : Nat
  uploadBlockSize : Nat
  ucHost : List Char
  rsHost : List Char
  uplogHost : List Char
  uplogEnabled : Bool
  appendedUserAgent : Option (List Char)
  recorder : UploadRecorderConfig
  domainsManager : DomainsManagerConfig
  deriving DecidableEq, Repr

/-- Modelled from the spec: the default option values pinned by
`test_qiniu_ng_config_new` (https on, batch size 1000, threshold `1 <<< 22`,
hosts `rs.qbox.me` / `uc.qbox.me` / `uplog.qbox.me`, uplog enabled,
recorder block lifetime seven days, no always-flush, resolutions cache one
hour, auto-persistent interval thirty minutes, persistence enabled). -/
def defaultSettings : ConfigSettings where
  useHttps := true
  batchMaxOperationSize := 1000
  uploadThreshold := 4194304
  uploadBlockSize := 4194304
  ucHost := "uc.qbox.me".toList
  rsHost := "rs.qbox.me".toList
  uplogHost := "uplog.qbox.me".toList
  uplogEnabled := true
  appendedUserAgent := none
  recorder := ⟨none, 604800, false⟩
  domainsManager := ⟨none, 600, 3600, 1800, false⟩

/-- Modelled from the spec: a single-use config builder with an explicit
consumed tag, like the policy builder. -/
structure ConfigBuilder where
  settings : ConfigSettings
  consumed : Bool
  deriving DecidableEq, Repr

/-- The fresh builder `qiniu_ng_config_builder_new`. -/
def configBuilderNew : ConfigBuilder := ⟨defaultSettings, false⟩

/-- The setter operations of the config builder exercised by the tests. -/
inductive ConfigBuilderOp where
  | useHttps (v : Bool)
  | batchMaxOperationSize (n : Nat)
  | uploadThreshold (n : Nat)
  | uploadBlockSize (n : Nat)
  | ucHost (h : List Char)
  | rsHost (h : List Char)
  | disableUplog
  | enableUplog
  | appendedUserAgent (s : List Char)
  | uploadRecorderRootDirectory (d : List Char)
  | uploadRecorderUploadBlockLifetime (n : Nat)
  | uploadRecorderAlwaysFlushRecords (v : Bool)
  | createNewDomainsManager (file : List Char)
  | domainsManagerUrlFrozenDuration (n : Nat)
  | domainsManagerResolutionsCacheLifetime (n : Nat)
  | domainsManagerAutoPersistentInterval (n : Nat)
  | domainsManagerDisableAutoPersistent
  deriving DecidableEq, Repr

/-- The effect of one config setter on the accumulated settings.
`domainsManagerDisableAutoPersistent` clears the interval to 0 and raises
the disabled flag, as `test_qiniu_ng_config_new2` observes. -/
def updateSettings (s : ConfigSettings) : ConfigBuilderOp → ConfigSettings
  | .useHttps v => { s with useHttps := v }
  | .batchMaxOperationSize n => { s with batchMaxOperationSize := n }
  | .uploadThreshold n => { s with uploadThreshold := n }
  | .uploadBlockSize n => { s with uploadBlockSize := n }
  | .ucHost h => { s with ucHost := h }
  | .rsHost h => { s with rsHost := h }
  | .disableUplog => { s with uplogEnabled := false }
  | .enableUplog => { s with uplogEnabled := true }
  | .appendedUserAgent ua => { s with appendedUserAgent := some ua }
  | .uploadRecorderRootDirectory d =>
      { s with recorder := { s.recorder with rootDirectory := some d } }
  | .uploadRecorderUploadBlockLifetime n =>
      { s with recorder := { s.recorder with uploadBlockLifetime := n } }
  | .uploadRecorderAlwaysFlushRecords v =>
      { s with recorder := { s.recorder with alwaysFlushRecords := v } }
  | .createNewDomainsManager file =>
      { s with domainsManager := { s.domainsManager with persistentFilePath := some file } }
  | .domainsManagerUrlFrozenDuration n =>
      { s with domainsManager := { s.domainsManager with urlFrozenDuration := n } }
  | .domainsManagerResolutionsCacheLifetime n =>
      { s with domainsManager := { s.domainsManager with resolutionsCacheLifetime := n } }
  | .domainsManagerAutoPersistentInterval n =>
      { s with domainsManager := { s.domainsManager with autoPersistentInterval := n } }
  | .domainsManagerDisableAutoPersistent =>
      { s with domainsManager :=
          { s.domainsManager with autoPersistentInterval := 0, autoPersistentDisabled := true } }

/-- Modelled from the spec: a config setter is a checked operation that is
rejected on a consumed builder. -/
def applyConfigOp (b : ConfigBuilder) (op : ConfigBuilderOp) : Option ConfigBuilder :=
  if b.consumed then none else some { b with settings := updateSettings b.settings op }

/-- Run a sequence of config setters; a rejected setter leaves the builder
unchanged. -/
def applyConfigOps (b : ConfigBuilder) (ops : List ConfigBuilderOp) : ConfigBuilder :=
  ops.foldl (fun b op => (applyConfigOp b op).getD b) b

/-- The built, immutable configuration. -/
structure Config where
  useHttps : Bool
  batchMaxOperationSize : Nat
  uploadThreshold : Nat
  uploadBlockSize : Nat
  userAgent : List Char
  ucUrl : List Char
  rsUrl : List Char
  uplogUrl : List Char
  uplogEnabled : Bool
  recorder : UploadRecorderConfig
  domainsManager : DomainsManagerConfig
  deriving DecidableEq, Repr

/-- The URL scheme selected by the `use_https` option. -/
def schemeFor (useHttps : Bool) : List Char :=
  if useHttps then "https://".toList else "http://".toList

/-- The user-agent always starts with this product tag
(`test_qiniu_ng_config_new` checks the prefix). -/
def baseUserAgent : List Char := "QiniuRust/qiniu-ng-0.0.1 ".toList

/-- Assemble a config from accumulated settings: URLs are the configured
hosts under the selected scheme, and the appended user-agent suffix is
attached to the base product tag. -/
def buildSettings (s : ConfigSettings) : Config where
  useHttps := s.useHttps
  batchMaxOperationSize := s.batchMaxOperationSize
  uploadThreshold := s.uploadThreshold
  uploadBlockSize := s.uploadBlockSize
  userAgent := baseUserAgent ++ (s.appendedUserAgent.getD [])
  ucUrl := schemeFor s.useHttps ++ s.ucHost
  rsUrl := schemeFor s.useHttps ++ s.rsHost
  uplogUrl := schemeFor s.useHttps ++ s.uplogHost
  uplogEnabled := s.uplogEnabled
  recorder := s.recorder
  domainsManager := s.domainsManager

/-- Modelled from the spec: `qiniu_ng_config_build` consumes the builder;
building from an already consumed builder is a checked error. -/
def configBuild (b : ConfigBuilder) : Option (Config × ConfigBuilder) :=
  if b.consumed then none else some (buildSettings b.settings, { b with consumed := true })

/-- The `qiniu_ng_config_builder_is_freed` predicate. -/
def configBuilderIsFreed (b : ConfigBuilder) : Bool := b.consumed

/-- The default config `qiniu_ng_config_new_default`. -/
def defaultConfig : Config := buildSettings defaultSettings

/-- Modelled from the spec (section 4.1): the domain-freeze table is loaded
from the persistence file at startup only when a file is configured and
auto-persistence is neither disabled nor set to interval 0. -/
def domainsManagerLoadsAtStartup (c : Config) : Bool :=
  c.domainsManager.persistentFilePath.isSome &&
    !c.domainsManager.autoPersistentDisabled &&
    decide (c.domainsManager.autoPersistentInterval ≠ 0)

/-- Modelled from the spec (section 4.1): the freeze table is flushed back
periodically only when a file is configured and auto-persistence is
neither disabled nor set to interval 0. -/
def domainsManagerPeriodicFlushEnabled (c : Config) : Bool :=
  c.domainsManager.persistentFilePath.isSome &&
    !c.domainsManager.autoPersistentDisabled &&
    decide (c.domainsManager.autoPersistentInterval ≠ 0)

/-! ## Single-file upload state machine (spec section 4.3) -/

/-- The resumable-policy override of an upload job: either the default
threshold rule of the config or forced resumability
(`qiniu_ng_resumable_policy_always_be_resumeable`). -/
inductive ResumablePolicy where
  | byThreshold
  | alwaysBeResumable
  deriving DecidableEq, Repr

/-- An upload job as admitted by the uploaders (`qiniu_ng_upload_params_t`
plus the source path). -/
structure UploadJob where
  path : List Char
  key : Option (List Char)
  fileName : Option (List Char)
  mime : Option (List Char)
  resumablePolicy : ResumablePolicy
  deriving DecidableEq, Repr

/-- The file system as the engine sees it: a path either resolves to the
file's byte content or does not exist. -/
def FileSystem : Type := List Char → Option (List Nat)

/-- One network interaction of the upload protocol (spec section 6):
a direct multipart form upload, a resumable block upload, or the final
"make file" assembly call. -/
inductive NetOp where
  | formUpload (bytes : List Nat)
  | mkblk (bytes : List Nat)
  | mkfile (size : Nat)
  deriving DecidableEq, Repr

/-- The bytes transmitted to the storage service by a sequence of network
operations. -/
def transmitted : List NetOp → List Nat
  | [] => []
  | .formUpload b :: t => b ++ transmitted t
  | .mkblk b :: t => b ++ transmitted t
  | .mkfile _ :: t => transmitted t

/-- The response of a successful terminal state. -/
structure UploadResponse where
  key : List Char
  hash : List Char
  deriving DecidableEq, Repr

/-- Which transfer path the state machine takes. -/
inductive UploadPath where
  | direct
  | resumable
  deriving DecidableEq, Repr

/-- Modelled from the spec: the direct path is taken for sizes strictly
below the configured `upload_threshold` unless the policy forces
resumability; otherwise the resumable block path is taken. -/
def decideUploadPath (threshold : Nat) (pol : ResumablePolicy) (size : Nat) : UploadPath :=
  match pol with
  | .alwaysBeResumable => .resumable
  | .byThreshold => if size < threshold then .direct else .resumable

/-- Split a list into consecutive blocks of size `n`; the first argument
is structural fuel, always instantiated with the list length. -/
def chunkBlocksAux {α : Type} : Nat → Nat → List α → List (List α)
  | 0, _, _ => []
  | _ + 1, _, [] => []
  | fuel + 1, n, a :: as => (a :: as).take n :: chunkBlocksAux fuel n ((a :: as).drop n)

/-- Modelled from the spec: the resumable path splits the file into
fixed-size blocks (`upload_block_size`); a degenerate block size of 0 is
treated as 1. -/
def chunkBlocks {α : Type} (n : Nat) (l : List α) : List (List α) :=
  chunkBlocksAux l.length (max 1 n) l

/-- Modelled from the spec: the object key of a job; when the caller
passed no key the service derives one from the content (the tests only
require it to be nonempty). -/
def keyOf (job : UploadJob) (content : List Nat) : List Char :=
  job.key.getD (etagFromData content)

/-- Modelled from the spec: the mime-syntax part of client-side
validation. -/
def mimeError : Option (List Char) → Option ErrKind
  | none => none
  | some m => if isValidMime m then none else some (.badMimeType m)

/-- Modelled from the spec (section 4.4): synchronous client-side
validation, performed before any network call: mime syntax, then source
existence, then the empty-file constraint of a forced-resumable policy. -/
def validateJob (fs : FileSystem) (job : UploadJob) : Option ErrKind :=
  match mimeError job.mime with
  | some e => some e
  | none =>
    match fs job.path with
    | none => some (.osError ENOENT)
    | some content =>
      if content.length = 0 ∧ job.resumablePolicy = .alwaysBeResumable then
        some .emptyFile
      else none

/-- Modelled from the spec: the single-file upload state machine, with its
network activity traced.  Validation failures are raised before any
network operation.  On the direct path one multipart request carries the
whole content; on the resumable path each block is transmitted by `mkblk`
and the final `mkfile` assembles the acknowledged blocks in offset order,
the server computing the hash over exactly the bytes it received. -/
def uploadFilePath (cfg : Config) (fs : FileSystem) (job : UploadJob) :
    Except ErrKind UploadResponse × List NetOp :=
  match validateJob fs job with
  | some e => (.error e, [])
  | none =>
    match fs job.path with
    | none => (.error (.osError ENOENT), [])
    | some content =>
      match decideUploadPath cfg.uploadThreshold job.resumablePolicy content.length with
      | .direct =>
          (.ok ⟨keyOf job content, etagFromData content⟩, [.formUpload content])
      | .resumable =>
          let blocks := chunkBlocks cfg.uploadBlockSize content
          (.ok ⟨keyOf job content, etagFromData blocks.flatten⟩,
            blocks.map .mkblk ++ [.mkfile blocks.flatten.length])

/-! ## Batch / concurrent scheduler (spec section 4.4) -/

/-- A batch uploader: the shared config and the queue of admitted jobs
(worker-pool size and the expected-jobs hint do not change which terminal
callbacks are delivered). -/
structure BatchUploader where
  config : Config
  jobs : List UploadJob
  expectedJobsCount : Nat
  workerCount : Nat
  deriving Repr

/-- The placeholder job (never reached under a valid execution order). -/
def emptyJob : UploadJob := ⟨[], none, none, none, .byThreshold⟩

/-- Modelled from the spec: `enqueue` validates the job synchronously and
either admits it at the back of the queue or rejects it immediately with
the validation error. -/
def batchEnqueue (fs : FileSystem) (u : BatchUploader) (job : UploadJob) :
    Except ErrKind BatchUploader :=
  match validateJob fs job with
  | some e => .error e
  | none => .ok { u with jobs := u.jobs ++ [job] }

/-- Modelled from the spec: `start()` drives every admitted job to a
terminal state and delivers each job's own result to that job's own
completion callback.  The nondeterministic worker scheduling is modelled
by an explicit execution order, a permutation of the job indices; the
returned list is the sequence of (job index, terminal result) callback
deliveries, available only once all jobs are terminal. -/
def batchStart (fs : FileSystem) (u : BatchUploader) (order : List Nat) :
    List (Nat × Except ErrKind UploadResponse) :=
  order.map fun i => (i, (uploadFilePath u.config fs (u.jobs.getD i emptyJob)).1)

/-- Whether a terminal result is a success. -/
def isOkResult (r : Except ErrKind UploadResponse) : Bool :=
  match r with
  | .ok _ => true
  | .error _ => false

/-! ## Request/response hook chain (spec sections 4.3 and 9) -/

/-- An HTTP request as the hook chain sees it, including the opaque
per-request custom data slot (`qiniu_ng_http_request_set_custom_data`). -/
structure HttpRequest where
  url : List Char
  headers : List (List Char × List Char)
  customData : Option Nat
  deriving DecidableEq, Repr

/-- An HTTP response as the hook chain sees it. -/
structure HttpResponse where
  statusCode : Nat
  body : List Nat
  deriving DecidableEq, Repr

/-- Modelled from the spec: a before-handler may mutate shared caller
state `σ` and the request (including its custom data), and may report
failure by returning an error. -/
structure BeforeHandler (σ : Type) where
  id : Nat
  run : σ → HttpRequest → σ × HttpRequest × Option ErrKind

/-- Modelled from the spec: an after-handler additionally observes the
request of the same exchange and may replace the response. -/
structure AfterHandler (σ : Type) where
  id : Nat
  run : σ → HttpRequest → HttpResponse → σ × HttpResponse × Option ErrKind

/-- `qiniu_ng_config_builder_prepend_http_request_before_action_handler`:
the most recently prepended handler runs first. -/
def prependBeforeHandler {σ : Type} (h : BeforeHandler σ) (c : List (BeforeHandler σ)) :
    List (BeforeHandler σ) := h :: c

/-- `qiniu_ng_config_builder_append_http_request_before_action_handler`:
appended handlers run after prepended ones, in append order. -/
def appendBeforeHandler {σ : Type} (h : BeforeHandler σ) (c : List (BeforeHandler σ)) :
    List (BeforeHandler σ) := c ++ [h]

/-- Append an after-handler to the after chain. -/
def appendAfterHandler {σ : Type} (h : AfterHandler σ) (c : List (AfterHandler σ)) :
    List (AfterHandler σ) := c ++ [h]

/-- Result of running the before chain: final state, the (possibly
rewritten) request, the first reported failure if any, and the trace of
the handler ids that ran. -/
structure BeforeRun (σ : Type) where
  state : σ
  request : HttpRequest
  failure : Option ErrKind
  trace : List Nat

/-- Run the before chain front to back, stopping at the first handler
that reports failure. -/
def runBeforeChain {σ : Type} : List (BeforeHandler σ) → σ → HttpRequest → BeforeRun σ
  | [], s, req => ⟨s, req, none, []⟩
  | h :: t, s, req =>
    match h.run s req with
    | (s', req', some e) => ⟨s', req', some e, [h.id]⟩
    | (s', req', none) =>
      let r := runBeforeChain t s' req'
      ⟨r.state, r.request, r.failure, h.id :: r.trace⟩

/-- Result of running the after chain. -/
structure AfterRun (σ : Type) where
  state : σ
  response : HttpResponse
  failure : Option ErrKind
  trace : List Nat

/-- Run the after chain front to back against the request of the same
exchange, stopping at the first handler that reports failure. -/
def runAfterChain {σ : Type} :
    List (AfterHandler σ) → σ → HttpRequest → HttpResponse → AfterRun σ
  | [], s, _, resp => ⟨s, resp, none, []⟩
  | h :: t, s, req, resp =>
    match h.run s req resp with
    | (s', resp', some e) => ⟨s', resp', some e, [h.id]⟩
    | (s', resp', none) =>
      let r := runAfterChain t s' req resp'
      ⟨r.state, r.response, r.failure, h.id :: r.trace⟩

/-- Result of one hook-wrapped HTTP exchange. -/
structure RequestRun (σ : Type) where
  state : σ
  result : Except ErrKind HttpResponse
  sentRequest : Option HttpRequest
  beforeTrace : List Nat
  afterTrace : List Nat

/-- Modelled from the spec: one HTTP exchange wrapped by the hook chain.
The before chain runs ahead of the request; a reported failure aborts the
pipeline before the transport is invoked.  On transport success the after
chain runs once against the response; a reported failure aborts the
pipeline with that handler's error. -/
def runRequest {σ : Type} (before : List (BeforeHandler σ)) (after : List (AfterHandler σ))
    (transport : HttpRequest → Except ErrKind HttpResponse) (s : σ) (req : HttpRequest) :
    RequestRun σ :=
  let rb := runBeforeChain before s req
  match rb.failure with
  | some e => ⟨rb.state, .error e, none, rb.trace, []⟩
  | none =>
    match transport rb.request with
    | .error e => ⟨rb.state, .error e, some rb.request, rb.trace, []⟩
    | .ok resp =>
      let ra := runAfterChain after rb.state rb.request resp
      match ra.failure with
      | some e => ⟨ra.state, .error e, some rb.request, rb.trace, ra.trace⟩
      | none => ⟨ra.state, .ok ra.response, some rb.request, rb.trace, ra.trace⟩

/-- A before-handler that never reports failure. -/
def BNeverFails {σ : Type} (h : BeforeHandler σ) : Prop :=
  ∀ s r, (h.run s r).2.2 = none

/-- An after-handler that never reports failure. -/
def ANeverFails {σ : Type} (h : AfterHandler σ) : Prop :=
  ∀ s r resp, (h.run s r resp).2.2 = none

/-- The before-handler of `test_qiniu_ng_config_http_request_handlers`:
it increments the shared counter and attaches the counter value as the
request's custom data. -/
def counterHandler : BeforeHandler Nat :=
  ⟨1, fun s r => (s + 1, { r with customData := some (s + 1) }, none)⟩

/-- The after-handler of the same test: it reads the custom data attached
by the before-handlers of the same request and surfaces it in the
response body. -/
def customDataReader : AfterHandler Nat :=
  ⟨2, fun s req resp => (s, { resp with body := [req.customData.getD 0] }, none)⟩

/-- The hook configuration of
`test_qiniu_ng_config_http_request_handlers`: the counting handler is
appended and then prepended (so it is installed twice), and the reader is
the only after-handler. -/
def counterScenario (tf : HttpRequest → HttpResponse) (s₀ : Nat) (req : HttpRequest) :
    RequestRun Nat :=
  runRequest (prependBeforeHandler counterHandler (appendBeforeHandler counterHandler []))
    (appendAfterHandler customDataReader []) (fun r => .ok (tf r)) s₀ req

/-- The after-handler of `test_qiniu_ng_config_bad_http_request_handlers_2`:
it reports failure with an `OsError` carrying `EPERM`. -/
def failingAfterHandler : AfterHandler Nat :=
  ⟨9, fun s _ resp => (s, resp, some (.osError EPERM))⟩

/-- A before-handler that reports failure with an `OsError` carrying
errno 7, used to exercise the before-abort path. -/
def failingBeforeHandler : BeforeHandler Nat :=
  ⟨8, fun s r => (s, r, some (.osError 7))⟩

/-! ## Concrete witness scenarios -/

/-- A one-file file system: path `a` holds the three bytes 1, 2, 3. -/
def fsW : FileSystem := fun p => if p = ['a'] then some [1, 2, 3] else none

/-- A small direct-path job against `fsW`. -/
def jobW : UploadJob := ⟨['a'], some ['k'], none, none, .byThreshold⟩

/-- A forced-resumable job against `fsW`. -/
def jobResumableW : UploadJob := ⟨['a'], some ['k'], none, none, .alwaysBeResumable⟩

/-- A job with the syntactically invalid mime string of the tests. -/
def jobBadMimeW : UploadJob := ⟨['a'], none, none, some "invalid".toList, .byThreshold⟩

/-- A job whose source path does not exist in `fsW`. -/
def jobMissingW : UploadJob := ⟨['m'], none, none, none, .byThreshold⟩

/-- A two-job batch (one valid job, one invalid-mime job) over `fsW`. -/
def batchW : BatchUploader := ⟨defaultConfig, [jobW, jobBadMimeW], 2, 5⟩

/-- The policy used by the token round-trip witness, mirroring
`test_qiniu_ng_make_upload_token`. -/
def tokenWitnessPolicy : UploadPolicy :=
  ⟨"test-bucket".toList, true, 1234567,
    ["https://apin1.qiniu.com/callback".toList, "https://apin2.qiniu.com/callback".toList],
    none, some "key=$(key)".toList, none, false⟩

/-- The credential used by the token round-trip witness. -/
def tokenWitnessCred : Credential := ⟨"ak".toList, "sk".toList⟩

/-- A minimal request for the hook-chain witnesses. -/
def reqW : HttpRequest := ⟨[], [], none⟩

/-- A minimal response for the hook-chain witnesses. -/
def respW : HttpResponse := ⟨200, []⟩

/-- Decidable equality for terminal results. -/
instance {ε α : Type} [DecidableEq ε] [DecidableEq α] : DecidableEq (Except ε α) :=
  fun x y =>
    match x, y with
    | .ok a, .ok b =>
        if h : a = b then .isTrue (by rw [h])
        else .isFalse (by intro hc; cases hc; exact h rfl)
    | .error a, .error b =>
        if h : a = b then .isTrue (by rw [h])
        else .isFalse (by intro hc; cases hc; exact h rfl)
    | .ok _, .error _ => .isFalse (by intro hc; cases hc)
    | .error _, .ok _ => .isFalse (by intro hc; cases hc)

/-! ## Supporting lemmas for the upload state machine -/

/-! ## Claim theorems -/

/-! ## Lemmas and claim theorems -/

theorem digitChar_isDigit {d : Nat} (h : d < 10) : (digitChar d).isDigit = true := by
  interval_cases d <;> decide

theorem toNat_digitChar {d : Nat} (h : d < 10) : (digitChar d).toNat - 48 = d := by
  interval_cases d <;> decide

theorem encNatAux_all_digits (fuel n : Nat) :
    ∀ c ∈ encNatAux fuel n, c.isDigit = true := by
  induction fuel generalizing n with
  | zero => intro c hc; simp [encNatAux] at hc
  | succ fuel ih =>
    intro c hc
    by_cases h0 : n = 0
    · simp [encNatAux, h0] at hc
    · simp [encNatAux, h0] at hc
      rcases hc with hc | hc
      · exact hc ▸ digitChar_isDigit (Nat.mod_lt _ (by omega))
      · exact ih (n / 10) c hc

theorem decDigitsLE_encNatAux {fuel n : Nat} (h : n ≤ fuel) :
    decDigitsLE (encNatAux fuel n) = n := by
  induction fuel generalizing n with
  | zero =>
    have h0 : n = 0 := Nat.le_zero.mp h
    simp [encNatAux, decDigitsLE, h0]
  | succ fuel ih =>
    by_cases h0 : n = 0
    · simp [encNatAux, h0, decDigitsLE]
    · have hdiv : n / 10 ≤ fuel := by
        have : n / 10 < n := Nat.div_lt_self (by omega) (by omega)
        omega
      simp [encNatAux, h0, decDigitsLE, ih hdiv, toNat_digitChar (Nat.mod_lt _ (by omega : (0:Nat) < 10))]
      omega

theorem takeWhile_append_stop {p : Char → Bool} {a : List Char} {b : Char} {t : List Char}
    (ha : ∀ c ∈ a, p c = true) (hb : p b = false) :
    (a ++ b :: t).takeWhile p = a ∧ (a ++ b :: t).dropWhile p = b :: t := by
  induction a with
  | nil => simp [List.takeWhile, List.dropWhile, hb]
  | cons c a' ih =>
    have hc : p c = true := ha c (by simp)
    have ih' := ih fun x hx => ha x (by simp [hx])
    simp [List.takeWhile, List.dropWhile, hc, ih'.1, ih'.2]

theorem decNatHeader_enc (n : Nat) (t : List Char) :
    decNatHeader (encNat n ++ ':' :: t) = some (n, t) := by
  have h := takeWhile_append_stop (p := Char.isDigit) (t := t)
    (encNatAux_all_digits n n) (by decide : Char.isDigit ':' = false)
  simp [decNatHeader, h.1, h.2, decDigitsLE_encNatAux (Nat.le_refl n), encNat]

theorem decField_enc (s t : List Char) :
    decField (encField s ++ t) = some (s, t) := by
  have : encField s ++ t = encNat s.length ++ ':' :: (s ++ t) := by
    simp [encField]
  rw [this, decField, decNatHeader_enc]
  simp [List.take_left, List.drop_left]

theorem decBool_enc (b : Bool) (t : List Char) :
    decBool (encBool b ++ t) = some (b, t) := by
  cases b <;> simp [encBool, decBool]

theorem decOptStr_enc (o : Option (List Char)) (t : List Char) :
    decOptStr (encOptStr o ++ t) = some (o, t) := by
  cases o with
  | none => simp [encOptStr, decOptStr]
  | some s => simp [encOptStr, decOptStr, decField_enc]

theorem decStrListAux_enc (ss : List (List Char)) (t : List Char) :
    decStrListAux ss.length ((ss.map encField).flatten ++ t) = some (ss, t) := by
  induction ss with
  | nil => simp [decStrListAux]
  | cons s ss ih =>
    simp only [List.map_cons, List.flatten_cons, List.length_cons, List.append_assoc]
    simp [decStrListAux, decField_enc, ih]

theorem decStrList_enc (ss : List (List Char)) (t : List Char) :
    decStrList (encStrList ss ++ t) = some (ss, t) := by
  have h : encStrList ss ++ t = encNat ss.length ++ ':' :: ((ss.map encField).flatten ++ t) := by
    simp [encStrList]
  rw [h]
  simp [decStrList, decNatHeader_enc, decStrListAux_enc]

theorem etagFromData_length (bs : List Nat) : (etagFromData bs).length = etagSize := by
  simp [etagFromData]

theorem etagChar_ne_colon (n : Nat) : etagChar n ≠ ':' := by
  have hlt : n % 62 < 62 := Nat.mod_lt _ (by omega)
  have h : ∀ k, k < 62 → etagAlphabet.getD k 'A' ≠ ':' := by decide
  exact h _ hlt

theorem etagFromData_no_colon (bs : List Nat) : ':' ∉ etagFromData bs := by
  intro hmem
  simp only [etagFromData, List.mem_map] at hmem
  obtain ⟨i, _, hi⟩ := hmem
  exact etagChar_ne_colon _ hi

theorem policyDecodeAux_enc (p : UploadPolicy) (t : List Char) :
    policyDecodeAux (policyEncode p ++ t) = some (p, t) := by
  obtain ⟨bucket, ins, dl, urls, host, body, btype, infreq⟩ := p
  simp only [policyEncode, List.append_assoc, List.cons_append]
  simp [policyDecodeAux, decField_enc, decBool_enc, decNatHeader_enc, decStrList_enc,
    decOptStr_enc]

theorem splitFirstColon_append {a : List Char} (b : List Char) (ha : ':' ∉ a) :
    splitFirstColon (a ++ ':' :: b) = some (a, b) := by
  induction a with
  | nil => simp [splitFirstColon]
  | cons c a' ih =>
    have hc : ¬(c = ':') := fun h => ha (by simp [h])
    have ha' : ':' ∉ a' := fun h => ha (by simp [h])
    simp [splitFirstColon, hc, ih ha']

theorem chunkBlocksAux_flatten {α : Type} (fuel n : Nat) (l : List α)
    (hn : 1 ≤ n) (hfuel : l.length ≤ fuel) :
    (chunkBlocksAux fuel n l).flatten = l := by
  induction fuel generalizing l with
  | zero =>
    have : l = [] := List.eq_nil_of_length_eq_zero (Nat.le_zero.mp hfuel)
    simp [this, chunkBlocksAux]
  | succ fuel ih =>
    match l with
    | [] => simp [chunkBlocksAux]
    | a :: as =>
      have hlen : ((a :: as).drop n).length ≤ fuel := by
        simp only [List.length_drop, List.length_cons] at *
        omega
      simp only [chunkBlocksAux, List.flatten_cons, ih _ hlen]
      exact List.take_append_drop n (a :: as)

theorem chunkBlocks_flatten {α : Type} (n : Nat) (l : List α) :
    (chunkBlocks n l).flatten = l :=
  chunkBlocksAux_flatten l.length (max 1 n) l (Nat.le_max_left 1 n) (Nat.le_refl _)

theorem runBeforeChain_success {σ : Type} (c : List (BeforeHandler σ))
    (hc : ∀ h ∈ c, BNeverFails h) (s : σ) (req : HttpRequest) :
    (runBeforeChain c s req).failure = none ∧
      (runBeforeChain c s req).trace = c.map (·.id) := by
  induction c generalizing s req with
  | nil => simp [runBeforeChain]
  | cons h t ih =>
    rcases hrun : h.run s req with ⟨s', req', e⟩
    have he : e = none := by
      have := hc h (by simp)
      simpa [hrun] using this s req
    subst he
    have iht := ih (fun x hx => hc x (by simp [hx])) s' req'
    simp [runBeforeChain, hrun, iht.1, iht.2]

theorem runAfterChain_success {σ : Type} (c : List (AfterHandler σ))
    (hc : ∀ h ∈ c, ANeverFails h) (s : σ) (req : HttpRequest) (resp : HttpResponse) :
    (runAfterChain c s req resp).failure = none ∧
      (runAfterChain c s req resp).trace = c.map (·.id) := by
  induction c generalizing s resp with
  | nil => simp [runAfterChain]
  | cons h t ih =>
    rcases hrun : h.run s req resp with ⟨s', resp', e⟩
    have he : e = none := by
      have := hc h (by simp)
      simpa [hrun] using this s req resp
    subst he
    have iht := ih (fun x hx => hc x (by simp [hx])) s' resp'
    simp [runAfterChain, hrun, iht.1, iht.2]

theorem runBeforeChain_failure {σ : Type} (c₁ c₂ : List (BeforeHandler σ))
    (h : BeforeHandler σ) (e : ErrKind)
    (hc : ∀ x ∈ c₁, BNeverFails x) (hfail : ∀ s r, (h.run s r).2.2 = some e)
    (s : σ) (req : HttpRequest) :
    (runBeforeChain (c₁ ++ h :: c₂) s req).failure = some e := by
  induction c₁ generalizing s req with
  | nil =>
    rcases hrun : h.run s req with ⟨s', req', e'⟩
    have he : e' = some e := by simpa [hrun] using hfail s req
    subst he
    simp [runBeforeChain, hrun]
  | cons x t ih =>
    rcases hrun : x.run s req with ⟨s', req', e'⟩
    have he : e' = none := by
      have := hc x (by simp)
      simpa [hrun] using this s req
    subst he
    simp [runBeforeChain, hrun, ih (fun y hy => hc y (by simp [hy]))]

theorem runAfterChain_failure {σ : Type} (c₁ c₂ : List (AfterHandler σ))
    (h : AfterHandler σ) (e : ErrKind)
    (hc : ∀ x ∈ c₁, ANeverFails x) (hfail : ∀ s r resp, (h.run s r resp).2.2 = some e)
    (s : σ) (req : HttpRequest) (resp : HttpResponse) :
    (runAfterChain (c₁ ++ h :: c₂) s req resp).failure = some e := by
  induction c₁ generalizing s resp with
  | nil =>
    rcases hrun : h.run s req resp with ⟨s', resp', e'⟩
    have he : e' = some e := by simpa [hrun] using hfail s req resp
    subst he
    simp [runAfterChain, hrun]
  | cons x t ih =>
    rcases hrun : x.run s req resp with ⟨s', resp', e'⟩
    have he : e' = none := by
      have := hc x (by simp)
      simpa [hrun] using this s req resp
    subst he
    simp [runAfterChain, hrun, ih (fun y hy => hc y (by simp [hy]))]

theorem transmitted_mkblk_mkfile (bs : List (List Nat)) (n : Nat) :
    transmitted (bs.map .mkblk ++ [.mkfile n]) = bs.flatten := by
  induction bs with
  | nil => simp [transmitted]
  | cons b t ih => simp [transmitted, ih]

theorem uploadFilePath_ok (cfg : Config) (fs : FileSystem) (job : UploadJob)
    (r : UploadResponse) (h : (uploadFilePath cfg fs job).1 = .ok r) :
    ∃ content, fs job.path = some content ∧
      r.hash = etagFromData content ∧
      r.hash = etagFromData (transmitted (uploadFilePath cfg fs job).2) ∧
      r.hash.length = etagSize := by
  rcases hv : validateJob fs job with _ | e
  · rcases hfs : fs job.path with _ | content
    · have key : uploadFilePath cfg fs job = (.error (.osError ENOENT), []) := by
        simp only [uploadFilePath, hv, hfs]
      rw [key] at h
      simp at h
    · rcases hpath : decideUploadPath cfg.uploadThreshold job.resumablePolicy content.length with
        _ | _
      · have key : uploadFilePath cfg fs job =
            (.ok ⟨keyOf job content, etagFromData content⟩, [.formUpload content]) := by
          simp only [uploadFilePath, hv, hfs, hpath]
        rw [key] at h
        simp only [Except.ok.injEq] at h
        subst h
        refine ⟨content, rfl, rfl, ?_, etagFromData_length content⟩
        rw [key]
        simp [transmitted]
      · have key : uploadFilePath cfg fs job =
            (.ok ⟨keyOf job content,
                etagFromData (chunkBlocks cfg.uploadBlockSize content).flatten⟩,
              (chunkBlocks cfg.uploadBlockSize content).map .mkblk ++
                [.mkfile (chunkBlocks cfg.uploadBlockSize content).flatten.length]) := by
          simp only [uploadFilePath, hv, hfs, hpath]
        rw [key] at h
        simp only [Except.ok.injEq] at h
        subst h
        refine ⟨content, rfl, ?_, ?_, etagFromData_length _⟩
        · simp [chunkBlocks_flatten]
        · rw [key]
          simp [transmitted_mkblk_mkfile]
  · have key : uploadFilePath cfg fs job = (.error e, []) := by
      simp only [uploadFilePath, hv]
    rw [key] at h
    simp at h

theorem policy_builder_consumed_stays :
    ∀ (ops : List PolicyBuilderOp) (b : UploadPolicyBuilder), b.consumed = true →
      (applyPolicyOps b ops).consumed = true := by
  intro ops
  induction ops with
  | nil => intro b hb; simpa [applyPolicyOps] using hb
  | cons op t ih =>
    intro b hb
    have hstep : applyPolicyOps b (op :: t) = applyPolicyOps b t := by
      simp [applyPolicyOps, applyPolicyOp, hb]
    rw [hstep]
    exact ih b hb

theorem config_builder_consumed_stays :
    ∀ (ops : List ConfigBuilderOp) (b : ConfigBuilder), b.consumed = true →
      (applyConfigOps b ops).consumed = true := by
  intro ops
  induction ops with
  | nil => intro b hb; simpa [applyConfigOps] using hb
  | cons op t ih =>
    intro b hb
    have hstep : applyConfigOps b (op :: t) = applyConfigOps b t := by
      simp [applyConfigOps, applyConfigOp, hb]
    rw [hstep]
    exact ih b hb

/-- C1: for every upload policy P (in particular one built from a policy
builder with bucket, insert-only, deadline, callback URLs and callback
body set) and every credential whose access key is colon-free, the policy
recovered via `Token::policy()` equals P — as a full record, hence on
bucket, insert_only, deadline, callback URLs and callback body — whether
the token was constructed by signing P with the credential
(`qiniu_ng_upload_token_new_from_policy`) or by wrapping the
already-signed token string (`qiniu_ng_upload_token_new_from_token`). -/
theorem upload_token_policy_roundtrip (p : UploadPolicy) (cred : Credential)
    (hak : ':' ∉ cred.accessKey) :
    uploadTokenGetPolicy (.fromPolicy p cred) = some p ∧
    uploadTokenGetPolicy
      (.fromString (uploadTokenGetString (.fromPolicy p cred))) = some p := by
  refine ⟨rfl, ?_⟩
  have hsig : ':' ∉ hmacSignModel cred.secretKey (policyEncode p) :=
    etagFromData_no_colon _
  have h1 : splitFirstColon (cred.accessKey ++ ':' ::
      (hmacSignModel cred.secretKey (policyEncode p) ++ ':' :: policyEncode p)) =
      some (cred.accessKey,
        hmacSignModel cred.secretKey (policyEncode p) ++ ':' :: policyEncode p) :=
    splitFirstColon_append _ hak
  have h2 : splitFirstColon
      (hmacSignModel cred.secretKey (policyEncode p) ++ ':' :: policyEncode p) =
      some (hmacSignModel cred.secretKey (policyEncode p), policyEncode p) :=
    splitFirstColon_append _ hsig
  have h3 : policyDecodeAux (policyEncode p) = some (p, []) := by
    have h := policyDecodeAux_enc p []
    simpa using h
  simp [uploadTokenGetString, uploadTokenGetPolicy, h1, h2, h3]

/-- Witness for C1 at the concrete policy and credential of
`test_qiniu_ng_make_upload_token`. -/
theorem upload_token_policy_roundtrip_witness :
    ':' ∉ tokenWitnessCred.accessKey ∧
    uploadTokenGetPolicy
      (.fromString (uploadTokenGetString
        (.fromPolicy tokenWitnessPolicy tokenWitnessCred))) = some tokenWitnessPolicy :=
  ⟨by decide,
   (upload_token_policy_roundtrip tokenWitnessPolicy tokenWitnessCred (by decide)).2⟩

/-- C4: for both single-use builders (upload-policy builder and config
builder), a successful `build()` consumes the builder: the `is_freed`
predicate on the returned builder state is true, it stays true under any
further sequence of mutators, a second `build()` is a checked error
(`none`), and every individual mutator on the consumed builder is a
checked error — the builder never re-enters the buildable state. -/
theorem builders_single_use :
    (∀ (b : UploadPolicyBuilder) (p : UploadPolicy) (b' : UploadPolicyBuilder),
      uploadPolicyBuild b = some (p, b') →
      uploadPolicyBuilderIsFreed b' = true ∧
      ∀ ops : List PolicyBuilderOp,
        uploadPolicyBuilderIsFreed (applyPolicyOps b' ops) = true ∧
        uploadPolicyBuild (applyPolicyOps b' ops) = none ∧
        ∀ op, applyPolicyOp (applyPolicyOps b' ops) op = none) ∧
    (∀ (b : ConfigBuilder) (c : Config) (b' : ConfigBuilder),
      configBuild b = some (c, b') →
      configBuilderIsFreed b' = true ∧
      ∀ ops : List ConfigBuilderOp,
        configBuilderIsFreed (applyConfigOps b' ops) = true ∧
        configBuild (applyConfigOps b' ops) = none ∧
        ∀ op, applyConfigOp (applyConfigOps b' ops) op = none) := by
  constructor
  · intro b p b' h
    cases hb : b.consumed with
    | true => simp [uploadPolicyBuild, hb] at h
    | false =>
      simp only [uploadPolicyBuild, hb, Bool.false_eq_true, if_false, Option.some.injEq,
        Prod.mk.injEq] at h
      have hb' : b'.consumed = true := by
        rw [← h.2]
      refine ⟨hb', fun ops => ?_⟩
      have hstays := policy_builder_consumed_stays ops b' hb'
      exact ⟨hstays, by simp [uploadPolicyBuild, hstays],
        fun op => by simp [applyPolicyOp, hstays]⟩
  · intro b c b' h
    cases hb : b.consumed with
    | true => simp [configBuild, hb] at h
    | false =>
      simp only [configBuild, hb, Bool.false_eq_true, if_false, Option.some.injEq,
        Prod.mk.injEq] at h
      have hb' : b'.consumed = true := by
        rw [← h.2]
      refine ⟨hb', fun ops => ?_⟩
      have hstays := config_builder_consumed_stays ops b' hb'
      exact ⟨hstays, by simp [configBuild, hstays],
        fun op => by simp [applyConfigOp, hstays]⟩

/-- Witness for C4: building a fresh policy builder and the fresh config
builder succeeds, and the returned builder states are freed. -/
theorem builders_single_use_witness :
    uploadPolicyBuild (uploadPolicyBuilderNewForBucket ['b'] 9) =
      some (⟨['b'], false, 9, [], none, none, none, false⟩,
        ⟨⟨['b'], false, 9, [], none, none, none, false⟩, true⟩) ∧
    uploadPolicyBuilderIsFreed ⟨⟨['b'], false, 9, [], none, none, none, false⟩, true⟩ = true ∧
    configBuild configBuilderNew = some (defaultConfig, ⟨defaultSettings, true⟩) ∧
    configBuilderIsFreed ⟨defaultSettings, true⟩ = true :=
  ⟨rfl,
   (builders_single_use.1 (uploadPolicyBuilderNewForBucket ['b'] 9)
      ⟨['b'], false, 9, [], none, none, none, false⟩
      ⟨⟨['b'], false, 9, [], none, none, none, false⟩, true⟩ rfl).1,
   rfl,
   (builders_single_use.2 configBuilderNew defaultConfig ⟨defaultSettings, true⟩ rfl).1⟩

/-- C10: error extraction is kind-selective and consuming: an extractor
for a non-matching kind returns false and leaves the error intact; the
extractor matching the error's kind returns true exactly once, yielding
the error payload (code or message) and clearing the cell, so a second
call of the same extractor on the same error value returns false. -/
theorem err_extraction_kind_selective (e : ErrKind) (t : ErrTag) :
    (e.tag ≠ t → extractErr t (some e) = (false, some e, none)) ∧
    (e.tag = t →
      extractErr t (some e) = (true, none, some e) ∧
      (extractErr t (extractErr t (some e)).2.1).1 = false) := by
  constructor
  · intro h
    simp [extractErr, h]
  · intro h
    refine ⟨by simp [extractErr, h], by simp [extractErr, h]⟩

/-- Witness for C10 at the `OsError` of the missing-path tests: the
curl extractor declines and leaves the error intact; the os extractor
matches once and the repeated call declines. -/
theorem err_extraction_witness :
    ((ErrKind.osError 2).tag ≠ ErrTag.curl ∧
      extractErr .curl (some (.osError 2)) = (false, some (.osError 2), none)) ∧
    ((ErrKind.osError 2).tag = ErrTag.os ∧
      extractErr .os (some (.osError 2)) = (true, none, some (.osError 2)) ∧
      (extractErr .os (extractErr .os (some (.osError 2))).2.1).1 = false) :=
  ⟨⟨by decide, (err_extraction_kind_selective (.osError 2) .curl).1 (by decide)⟩,
   ⟨rfl, (err_extraction_kind_selective (.osError 2) .os).2 rfl⟩⟩

/-- C9: every recognized option set on the config builder is observable
unchanged through the corresponding getter of the built config (https
flag, batch max operation size, upload threshold, uc host under the
selected scheme, uplog enable/disable, recorder root directory, recorder
block lifetime, recorder always-flush, domains-manager frozen duration),
and disabling domains-manager auto-persistence reports interval 0 and a
true disabled predicate, which turns off both the startup load and the
periodic flush of the freeze table. -/
theorem config_options_observable (s : ConfigSettings) (v : Bool) (n : Nat) (h d : List Char) :
    (buildSettings (updateSettings s (.useHttps v))).useHttps = v ∧
    (buildSettings (updateSettings s (.batchMaxOperationSize n))).batchMaxOperationSize = n ∧
    (buildSettings (updateSettings s (.uploadThreshold n))).uploadThreshold = n ∧
    (buildSettings (updateSettings s (.ucHost h))).ucUrl = schemeFor s.useHttps ++ h ∧
    (buildSettings (updateSettings s .disableUplog)).uplogEnabled = false ∧
    (buildSettings (updateSettings s .enableUplog)).uplogEnabled = true ∧
    (buildSettings (updateSettings s
        (.uploadRecorderRootDirectory d))).recorder.rootDirectory = some d ∧
    (buildSettings (updateSettings s
        (.uploadRecorderUploadBlockLifetime n))).recorder.uploadBlockLifetime = n ∧
    (buildSettings (updateSettings s
        (.uploadRecorderAlwaysFlushRecords v))).recorder.alwaysFlushRecords = v ∧
    (buildSettings (updateSettings s
        (.domainsManagerUrlFrozenDuration n))).domainsManager.urlFrozenDuration = n ∧
    (buildSettings (updateSettings s
        .domainsManagerDisableAutoPersistent)).domainsManager.autoPersistentInterval = 0 ∧
    (buildSettings (updateSettings s
        .domainsManagerDisableAutoPersistent)).domainsManager.autoPersistentDisabled = true ∧
    domainsManagerLoadsAtStartup
      (buildSettings (updateSettings s .domainsManagerDisableAutoPersistent)) = false ∧
    domainsManagerPeriodicFlushEnabled
      (buildSettings (updateSettings s .domainsManagerDisableAutoPersistent)) = false := by
  refine ⟨rfl, rfl, rfl, rfl, rfl, rfl, rfl, rfl, rfl, rfl, rfl, rfl, ?_, ?_⟩ <;>
    simp [domainsManagerLoadsAtStartup, domainsManagerPeriodicFlushEnabled, buildSettings,
      updateSettings]

/-- C8: jobs whose size is strictly below the configured
`upload_threshold` (default `1 <<< 22`) and whose policy does not force
resumability take the direct path (one multipart request); jobs at or
above the threshold, or forced by policy, take the resumable block
path. -/
theorem upload_path_threshold :
    defaultConfig.uploadThreshold = 4194304 ∧
    (∀ t sz, sz < t → decideUploadPath t .byThreshold sz = .direct) ∧
    (∀ t pol sz, t ≤ sz ∨ pol = .alwaysBeResumable →
      decideUploadPath t pol sz = .resumable) ∧
    (∀ (cfg : Config) (fs : FileSystem) (job : UploadJob) (content : List Nat),
      fs job.path = some content → validateJob fs job = none →
      ((content.length < cfg.uploadThreshold ∧ job.resumablePolicy = .byThreshold →
        (uploadFilePath cfg fs job).2 = [.formUpload content]) ∧
       (cfg.uploadThreshold ≤ content.length ∨ job.resumablePolicy = .alwaysBeResumable →
        (uploadFilePath cfg fs job).2 =
          (chunkBlocks cfg.uploadBlockSize content).map .mkblk ++
            [.mkfile (chunkBlocks cfg.uploadBlockSize content).flatten.length]))) := by
  refine ⟨rfl, ?_, ?_, ?_⟩
  · intro t sz hlt
    simp [decideUploadPath, hlt]
  · intro t pol sz hcond
    cases pol with
    | alwaysBeResumable => simp [decideUploadPath]
    | byThreshold =>
      rcases hcond with hle | hpol
      · simp [decideUploadPath, Nat.not_lt.mpr hle]
      · cases hpol
  · intro cfg fs job content hfs hv
    constructor
    · intro ⟨hlt, hpol⟩
      have hpath : decideUploadPath cfg.uploadThreshold job.resumablePolicy content.length =
          .direct := by simp [decideUploadPath, hpol, hlt]
      simp only [uploadFilePath, hv, hfs, hpath]
    · intro hcond
      have hpath : decideUploadPath cfg.uploadThreshold job.resumablePolicy content.length =
          .resumable := by
        cases hp : job.resumablePolicy with
        | alwaysBeResumable => simp [decideUploadPath]
        | byThreshold =>
          rcases hcond with hle | hpol
          · simp [decideUploadPath, Nat.not_lt.mpr hle]
          · rw [hp] at hpol; cases hpol
      simp only [uploadFilePath, hv, hfs, hpath]

/-- Witness for C8: a three-byte file under the default threshold takes
the direct path; the same file under a forced-resumable policy takes the
block path. -/
theorem upload_path_threshold_witness :
    3 < defaultConfig.uploadThreshold ∧
    decideUploadPath defaultConfig.uploadThreshold .byThreshold 3 = .direct ∧
    validateJob fsW jobResumableW = none ∧
    (uploadFilePath defaultConfig fsW jobResumableW).2 =
      (chunkBlocks defaultConfig.uploadBlockSize [1, 2, 3]).map .mkblk ++
        [.mkfile (chunkBlocks defaultConfig.uploadBlockSize [1, 2, 3]).flatten.length] :=
  ⟨by decide, upload_path_threshold.2.1 _ 3 (by decide), by decide,
   (upload_path_threshold.2.2.2 defaultConfig fsW jobResumableW [1, 2, 3]
      (by decide) (by decide)).2 (Or.inr rfl)⟩

/-- C2: whenever an upload reaches the successful terminal state, the
hash of the returned response equals the etag of exactly the bytes
transmitted over the network, which equals the etag independently
computed over the source file's content, and its length is `etagSize`;
this holds on the direct path, the resumable path (where the transmitted
blocks reassemble the content), and for every successful job of a
batch. -/
theorem upload_response_hash_is_etag :
    (∀ (cfg : Config) (fs : FileSystem) (job : UploadJob) (content : List Nat)
        (r : UploadResponse) (ops : List NetOp),
        fs job.path = some content →
        uploadFilePath cfg fs job = (.ok r, ops) →
        r.hash = etagFromData (transmitted ops) ∧
        r.hash = etagFromData content ∧
        r.hash.length = etagSize) ∧
    (∀ (fs : FileSystem) (u : BatchUploader) (order : List Nat) (i : Nat)
        (r : UploadResponse),
        (i, Except.ok r) ∈ batchStart fs u order →
        ∃ content, fs (u.jobs.getD i emptyJob).path = some content ∧
          r.hash = etagFromData content ∧ r.hash.length = etagSize) := by
  constructor
  · intro cfg fs job content r ops hfs h
    have h1 : (uploadFilePath cfg fs job).1 = .ok r := by rw [h]
    have h2 : (uploadFilePath cfg fs job).2 = ops := by rw [h]
    obtain ⟨c', hc', he1, he2, he3⟩ := uploadFilePath_ok cfg fs job r h1
    rw [hfs] at hc'
    injection hc' with hce
    subst hce
    rw [h2] at he2
    exact ⟨he2, he1, he3⟩
  · intro fs u order i r hmem
    simp only [batchStart, List.mem_map] at hmem
    obtain ⟨j, hj, hpair⟩ := hmem
    rw [Prod.mk.injEq] at hpair
    obtain ⟨hji, hres⟩ := hpair
    subst hji
    obtain ⟨content, hc, he1, _, he3⟩ :=
      uploadFilePath_ok u.config fs (u.jobs.getD j emptyJob) r hres
    exact ⟨content, hc, he1, he3⟩

/-- Witness for C2: the three-byte direct upload returns the etag of the
transmitted bytes, which are the file content. -/
theorem upload_response_hash_witness :
    fsW ['a'] = some [1, 2, 3] ∧
    uploadFilePath defaultConfig fsW jobW =
      (.ok ⟨['k'], etagFromData [1, 2, 3]⟩, [.formUpload [1, 2, 3]]) ∧
    ((⟨['k'], etagFromData [1, 2, 3]⟩ : UploadResponse).hash =
        etagFromData (transmitted [.formUpload [1, 2, 3]]) ∧
      (⟨['k'], etagFromData [1, 2, 3]⟩ : UploadResponse).hash = etagFromData [1, 2, 3] ∧
      (⟨['k'], etagFromData [1, 2, 3]⟩ : UploadResponse).hash.length = etagSize) :=
  ⟨rfl, rfl,
   upload_response_hash_is_etag.1 defaultConfig fsW jobW [1, 2, 3]
     ⟨['k'], etagFromData [1, 2, 3]⟩ [.formUpload [1, 2, 3]] rfl rfl⟩

/-- C3: client-side validation failures are classified and raised before
any network call (the network trace is empty): a syntactically invalid
mime string fails with `BadMimeType`; a non-existent source path fails
with `OsError(ENOENT)`; a zero-byte file under a forced-resumable policy
fails with `EmptyFile`.  The batch scheduler performs the same checks
synchronously at enqueue time: an invalid job is rejected immediately
with its validation error and a valid job is admitted at the back of the
queue. -/
theorem validation_before_network :
    (∀ (cfg : Config) (fs : FileSystem) (job : UploadJob) (m : List Char),
        job.mime = some m → isValidMime m = false →
        uploadFilePath cfg fs job = (.error (.badMimeType m), [])) ∧
    (∀ (cfg : Config) (fs : FileSystem) (job : UploadJob),
        mimeError job.mime = none → fs job.path = none →
        uploadFilePath cfg fs job = (.error (.osError ENOENT), [])) ∧
    (∀ (cfg : Config) (fs : FileSystem) (job : UploadJob),
        mimeError job.mime = none → fs job.path = some [] →
        job.resumablePolicy = .alwaysBeResumable →
        uploadFilePath cfg fs job = (.error .emptyFile, [])) ∧
    (∀ (fs : FileSystem) (u : BatchUploader) (job : UploadJob) (e : ErrKind),
        validateJob fs job = some e → batchEnqueue fs u job = .error e) ∧
    (∀ (fs : FileSystem) (u : BatchUploader) (job : UploadJob),
        validateJob fs job = none →
        batchEnqueue fs u job = .ok { u with jobs := u.jobs ++ [job] }) := by
  refine ⟨?_, ?_, ?_, ?_, ?_⟩
  · intro cfg fs job m hm hbad
    have hv : validateJob fs job = some (.badMimeType m) := by
      simp [validateJob, mimeError, hm, hbad]
    simp only [uploadFilePath, hv]
  · intro cfg fs job hmime hfs
    have hv : validateJob fs job = some (.osError ENOENT) := by
      simp [validateJob, hmime, hfs]
    simp only [uploadFilePath, hv]
  · intro cfg fs job hmime hfs hpol
    have hv : validateJob fs job = some .emptyFile := by
      simp [validateJob, hmime, hfs, hpol]
    simp only [uploadFilePath, hv]
  · intro fs u job e hv
    simp [batchEnqueue, hv]
  · intro fs u job hv
    simp [batchEnqueue, hv]

/-- Witness for C3: the invalid-mime job fails with `BadMimeType` and an
empty trace, and enqueueing the missing-path job into a batch is rejected
immediately with `OsError(ENOENT)`. -/
theorem validation_before_network_witness :
    jobBadMimeW.mime = some ("invalid".toList) ∧
    isValidMime ("invalid".toList) = false ∧
    uploadFilePath defaultConfig fsW jobBadMimeW =
      (.error (.badMimeType ("invalid".toList)), []) ∧
    validateJob fsW jobMissingW = some (.osError ENOENT) ∧
    batchEnqueue fsW batchW jobMissingW = .error (.osError ENOENT) :=
  ⟨rfl, by decide,
   validation_before_network.1 defaultConfig fsW jobBadMimeW ("invalid".toList) rfl (by decide),
   by decide,
   validation_before_network.2.2.2.1 fsW batchW jobMissingW (.osError ENOENT) (by decide)⟩

/-- C6: for every batch of K admitted jobs and every execution order of
the worker pool (a permutation of the job indices), `start()` returns
only once all jobs are terminal and delivers exactly K completion
callbacks: one per job index, each carrying that job's own result
(independent of sibling jobs), with successes plus failures summing to
K. -/
theorem batch_start_delivers_all (u : BatchUploader) (fs : FileSystem) (order : List Nat)
    (hperm : order.Perm (List.range u.jobs.length)) :
    (batchStart fs u order).length = u.jobs.length ∧
    (∀ i, i < u.jobs.length →
      (i, (uploadFilePath u.config fs (u.jobs.getD i emptyJob)).1) ∈ batchStart fs u order) ∧
    (∀ pr ∈ batchStart fs u order,
      pr.2 = (uploadFilePath u.config fs (u.jobs.getD pr.1 emptyJob)).1) ∧
    (batchStart fs u order).countP (fun pr => isOkResult pr.2) +
      (batchStart fs u order).countP (fun pr => !isOkResult pr.2) = u.jobs.length := by
  have hlen : (batchStart fs u order).length = u.jobs.length := by
    simp [batchStart, hperm.length_eq]
  refine ⟨hlen, ?_, ?_, ?_⟩
  · intro i hi
    have hmem : i ∈ order := hperm.mem_iff.mpr (List.mem_range.mpr hi)
    simp only [batchStart]
    exact List.mem_map_of_mem _ hmem
  · intro pr hpr
    simp only [batchStart, List.mem_map] at hpr
    obtain ⟨j, _, rfl⟩ := hpr
    rfl
  · have hfun : (fun (pr : Nat × Except ErrKind UploadResponse) => !isOkResult pr.2) =
        fun pr => decide ¬(isOkResult pr.2 = true) := by
      funext pr
      simp
    rw [hfun, ← List.length_eq_countP_add_countP]
    exact hlen

/-- Witness for C6: a two-job batch (one valid, one invalid-mime job) run
in the order job 1 then job 0 delivers exactly two callbacks, including
the failing job's own error, without skipping its sibling. -/
theorem batch_start_witness :
    ([1, 0].Perm (List.range batchW.jobs.length)) ∧
    (batchStart fsW batchW [1, 0]).length = batchW.jobs.length ∧
    (1, (uploadFilePath batchW.config fsW (batchW.jobs.getD 1 emptyJob)).1) ∈
      batchStart fsW batchW [1, 0] ∧
    (0, (uploadFilePath batchW.config fsW (batchW.jobs.getD 0 emptyJob)).1) ∈
      batchStart fsW batchW [1, 0] :=
  ⟨by decide,
   (batch_start_delivers_all batchW fsW [1, 0] (by decide)).1,
   (batch_start_delivers_all batchW fsW [1, 0] (by decide)).2.1 1 (by decide),
   (batch_start_delivers_all batchW fsW [1, 0] (by decide)).2.1 0 (by decide)⟩

/-- C5: with all installed handlers succeeding, every before-handler runs
exactly once ahead of the request and every after-handler exactly once
after the response, in chain order; a prepended handler runs before the
whole existing chain and an appended one after it; and in the scenario of
`test_qiniu_ng_config_http_request_handlers` (the counting handler
appended and prepended, so installed twice), one request increments the
shared counter by exactly 2, and the custom data it attached is delivered
unchanged to the after-handler, which surfaces it in the response. -/
theorem hook_handlers_run_once_in_order :
    (∀ (σ : Type) (before : List (BeforeHandler σ)) (after : List (AfterHandler σ))
        (tf : HttpRequest → HttpResponse) (s : σ) (req : HttpRequest),
        (∀ h ∈ before, BNeverFails h) → (∀ h ∈ after, ANeverFails h) →
        (runRequest before after (fun r => .ok (tf r)) s req).beforeTrace =
            before.map (·.id) ∧
        (runRequest before after (fun r => .ok (tf r)) s req).afterTrace =
            after.map (·.id)) ∧
    (∀ (σ : Type) (h h' : BeforeHandler σ) (c : List (BeforeHandler σ)),
        prependBeforeHandler h (appendBeforeHandler h' c) = h :: (c ++ [h'])) ∧
    (∀ (tf : HttpRequest → HttpResponse) (s₀ : Nat) (req : HttpRequest),
        (counterScenario tf s₀ req).state = s₀ + 2 ∧
        (counterScenario tf s₀ req).beforeTrace = [counterHandler.id, counterHandler.id] ∧
        (counterScenario tf s₀ req).afterTrace = [customDataReader.id] ∧
        (counterScenario tf s₀ req).sentRequest =
          some { req with customData := some (s₀ + 2) } ∧
        (counterScenario tf s₀ req).result =
          .ok ⟨(tf { req with customData := some (s₀ + 2) }).statusCode, [s₀ + 2]⟩) := by
  refine ⟨?_, ?_, ?_⟩
  · intro σ before after tf s req hb ha
    have h1 := runBeforeChain_success before hb s req
    have h2 := runAfterChain_success after ha (runBeforeChain before s req).state
      (runBeforeChain before s req).request (tf (runBeforeChain before s req).request)
    constructor <;> simp [runRequest, h1.1, h1.2, h2.1, h2.2]
  · intro σ h h' c
    rfl
  · intro tf s₀ req
    refine ⟨?_, ?_, ?_, ?_, ?_⟩ <;>
      simp [counterScenario, runRequest, prependBeforeHandler, appendBeforeHandler,
        appendAfterHandler, runBeforeChain, runAfterChain, counterHandler, customDataReader]

/-- Witness for C5: with empty chains the traces are empty, and the
concrete counting scenario started at 0 ends with counter 2. -/
theorem hook_handlers_witness :
    (runRequest ([] : List (BeforeHandler Nat)) [] (fun r => .ok ((fun _ => respW) r))
        0 reqW).beforeTrace = [] ∧
    (counterScenario (fun _ => respW) 0 reqW).state = 2 :=
  ⟨by
    have h := (hook_handlers_run_once_in_order.1 Nat [] [] (fun _ => respW) 0 reqW
      (by simp) (by simp)).1
    simpa using h,
   by
    have h := (hook_handlers_run_once_in_order.2.2 (fun _ => respW) 0 reqW).1
    simpa using h⟩

/-- C7 counterexample: in the scenario of
`test_qiniu_ng_config_bad_http_request_handlers_2`, the after-handler
reports failure with `OsError(EPERM)`; the pipeline aborts with exactly
that `OsError` — which is not a UserCanceled-class error — refuting the
claim that a failing hook always surfaces a UserCanceled-class error.
Consistent with the test, the error is extractable as an os error and not
as a curl/transport error. -/
theorem hook_failure_not_user_canceled_cex :
    (runRequest ([] : List (BeforeHandler Nat)) [failingAfterHandler]
        (fun _ => .ok ⟨200, []⟩) 0 ⟨[], [], none⟩).result = .error (.osError EPERM) ∧
    (ErrKind.osError EPERM).isUserCanceled = false ∧
    (ErrKind.osError EPERM).isCurlError = false ∧
    extractErr .curl (some (.osError EPERM)) = (false, some (.osError EPERM), none) ∧
    extractErr .os (some (.osError EPERM)) = (true, none, some (.osError EPERM)) := by
  refine ⟨?_, by decide, by decide, by decide, by decide⟩
  simp [runRequest, runBeforeChain, runAfterChain, failingAfterHandler]

/-- C7 amended: if a before- or after-handler reports failure with error
e, the request pipeline aborts with exactly e — the engine neither
reclassifies it as a transport/curl error nor wraps it as UserCanceled —
so callers can distinguish a hook-initiated abort from a network failure;
a failing before-handler additionally aborts before the transport is
invoked. -/
theorem hook_failure_aborts_with_reported_error :
    (∀ (σ : Type) (c₁ c₂ : List (BeforeHandler σ)) (h : BeforeHandler σ) (e : ErrKind)
        (after : List (AfterHandler σ)) (transport : HttpRequest → Except ErrKind HttpResponse)
        (s : σ) (req : HttpRequest),
        (∀ x ∈ c₁, BNeverFails x) → (∀ s r, (h.run s r).2.2 = some e) →
        (runRequest (c₁ ++ h :: c₂) after transport s req).result = .error e ∧
        (runRequest (c₁ ++ h :: c₂) after transport s req).sentRequest = none) ∧
    (∀ (σ : Type) (before : List (BeforeHandler σ)) (a₁ a₂ : List (AfterHandler σ))
        (h : AfterHandler σ) (e : ErrKind) (tf : HttpRequest → HttpResponse)
        (s : σ) (req : HttpRequest),
        (∀ x ∈ before, BNeverFails x) → (∀ x ∈ a₁, ANeverFails x) →
        (∀ s r resp, (h.run s r resp).2.2 = some e) →
        (runRequest before (a₁ ++ h :: a₂) (fun r => .ok (tf r)) s req).result =
          .error e) := by
  constructor
  · intro σ c₁ c₂ h e after transport s req hc hfail
    have hf := runBeforeChain_failure c₁ c₂ h e hc hfail s req
    constructor <;> simp [runRequest, hf]
  · intro σ before a₁ a₂ h e tf s req hb ha hfail
    have h1 := runBeforeChain_success before hb s req
    have hf := runAfterChain_failure a₁ a₂ h e ha hfail (runBeforeChain before s req).state
      (runBeforeChain before s req).request (tf (runBeforeChain before s req).request)
    simp [runRequest, h1.1, hf]

/-- Witness for C7 (amended): a failing before-handler aborts the concrete
pipeline with its reported os error, before the transport runs. -/
theorem hook_failure_aborts_witness :
    (runRequest ([] ++ failingBeforeHandler :: []) ([] : List (AfterHandler Nat))
        (fun _ => .ok respW) 0 reqW).result = .error (.osError 7) ∧
    (runRequest ([] ++ failingBeforeHandler :: []) ([] : List (AfterHandler Nat))
        (fun _ => .ok respW) 0 reqW).sentRequest = none :=
  hook_failure_aborts_with_reported_error.1 Nat [] [] failingBeforeHandler (.osError 7)
    [] (fun _ => .ok respW) 0 reqW (by simp) (fun s r => rfl)

end QiniuNg

